import Mathlib

/-!
Verification of the xDS transport engine (`xds/internal/xdsclient/transport/transport.go`).

The transport keeps three mutex-guarded tables keyed by resource-type URL:
`resources` (subscribed names), `versions` (last ACKed version) and `nonces`
(last nonce seen on the current stream).  The Go `resources` map is modelled as
an association list from type URL to the stored key set of the inner
`map[string]bool`; the string-valued `versions` and `nonces` maps are modelled
as total functions with default `""`, which is exactly how Go map reads with a
missing key behave (every access to these two maps in the source is a pointwise
read, write, or wholesale reset, so the total-function view is faithful).
Stream handles (`adsStream` values, compared by identity in the source) are
modelled as natural-number identifiers.
-/

set_option autoImplicit false

namespace XdsTransport

/-- Pointwise update of a string-keyed, string-valued Go map (`m[k] = v`). -/
def stringMapSet (m : String → String) (k v : String) : String → String :=
  fun x => if x = k then v else m x

/-- Read from an association list, mirroring `s, ok := m[url]` on a Go map. -/
def mapLookup {β : Type} : List (String × β) → String → Option β
  | [], _ => none
  | (k, v) :: rest, url => if k = url then some v else mapLookup rest url

/-- Write to an association list, mirroring `m[url] = v` on a Go map:
the binding for an existing key is replaced in place, a new key is appended. -/
def mapInsert {β : Type} : List (String × β) → String → β → List (String × β)
  | [], url, v => [(url, v)]
  | (k, w) :: rest, url, v =>
      if k = url then (url, v) :: rest else (k, w) :: mapInsert rest url v

/-- `sliceToMap` builds `map[string]bool` from a name list; its key set is the
set of distinct elements of the slice (Go map keys are unordered, so only the
set is observable). -/
def sliceToMap (ss : List String) : List String :=
  ss.dedup

/-- `mapToSlice` returns the keys of a `map[string]bool`; in this model the
stored value already is the key list. -/
def mapToSlice (m : List String) : List String :=
  m

/-- The mutex-guarded runtime state of the `Transport`: subscription set,
version table and nonce table. -/
structure TransportState where
  resources : List (String × List String)
  versions : String → String
  nonces : String → String

/-- `resourceRequest`: the resource type url and the resource names requested
by the user of the transport. -/
structure ResourceRequest where
  resources : List String
  url : String

/-- `ackRequest`: an ACK/NACK pending in the request queue.  `nackErr = none`
means ACK; the `stream` field tags the request with the stream it was
generated for. -/
structure AckRequest where
  url : String
  version : String
  nonce : String
  nackErr : Option String
  stream : Nat

/-- Result of `processAckRequest`: the updated state together with the Go
function's five return values. -/
structure AckProcessResult where
  state : TransportState
  resources : List String
  url : String
  version : String
  nonce : String
  send : Bool

/-- Result of `processResourceRequest`: the updated state together with the Go
function's four return values. -/
structure ResourceProcessResult where
  state : TransportState
  resources : List String
  url : String
  version : String
  nonce : String

/-- `Transport.processResourceRequest`: stores the requested names in the
resources map (replacing the previous set for that type) and returns the list
of resources, resource type url, version and nonce. -/
def processResourceRequest (t : TransportState) (req : ResourceRequest) :
    ResourceProcessResult :=
  let resources := sliceToMap req.resources
  { state := { t with resources := mapInsert t.resources req.url resources }
    resources := req.resources
    url := req.url
    version := t.versions req.url
    nonce := t.nonces req.url }

/-- `Transport.processAckRequest`: drops the request without touching any
table when its stream tag differs from the sender's current stream; otherwise
updates the nonce table unconditionally, drops the request when the
subscription set for the type is absent or empty, and updates the version
table only when an ACK is about to be sent. -/
def processAckRequest (t : TransportState) (ack : AckRequest)
    (stream : Option Nat) : AckProcessResult :=
  if some ack.stream ≠ stream then
    -- The ACK was pushed to the queue before the old stream broke; return
    -- immediately so the nonce for the new stream is not updated.
    { state := t, resources := [], url := "", version := "", nonce := "", send := false }
  else
    -- Update the nonce irrespective of whether the ACK is sent on the wire.
    let nonce := ack.nonce
    let t1 : TransportState := { t with nonces := stringMapSet t.nonces ack.url nonce }
    match mapLookup t.resources ack.url with
    | none =>
        { state := t1, resources := [], url := "", version := "", nonce := "", send := false }
    | some s =>
        if s.isEmpty then
          -- No resources of this type in the resources map: an empty resource
          -- name list would be a wildcard request, so drop the ACK.
          { state := t1, resources := [], url := "", version := "", nonce := "", send := false }
        else
          let resources := mapToSlice s
          -- Update the versions map only when an ACK is sent.
          let t2 : TransportState :=
            if ack.nackErr = none then
              { t1 with versions := stringMapSet t1.versions ack.url ack.version }
            else t1
          { state := t2, resources := resources, url := ack.url
            version := ack.version, nonce := nonce, send := true }

/-- A pending request drawn from the unbounded queue `adsRequestCh`. -/
inductive PendingRequest where
  | resourceReq (r : ResourceRequest)
  | ackReq (a : AckRequest)

/-- The wire message handed to `sendAggregatedDiscoveryServiceRequest`:
resource names, type URL, version info, response nonce and the NACK error
detail when present. -/
structure WireRequest where
  resources : List String
  url : String
  version : String
  nonce : String
  nackErr : Option String

/-- One iteration of the request-processing branch of `Transport.send`: the
queue item is processed against the current stream (`none` when no usable
stream is held), and the message transmitted on the stream, if any, is
returned alongside the new table state. -/
def sendProcessRequest (t : TransportState) (stream : Option Nat)
    (u : PendingRequest) : TransportState × Option WireRequest :=
  match u with
  | .resourceReq req =>
      let r := processResourceRequest t req
      match stream with
      | none =>
          -- No stream yet: skip the request; it will be resent on new streams.
          (r.state, none)
      | some _ => (r.state, some ⟨r.resources, r.url, r.version, r.nonce, none⟩)
  | .ackReq a =>
      let r := processAckRequest t a stream
      if !r.send then (r.state, none)
      else
        match stream with
        | none => (r.state, none)
        | some _ => (r.state, some ⟨r.resources, r.url, r.version, r.nonce, a.nackErr⟩)

/-- Outcome of the external update-handler callback on one response, as
discriminated by `Transport.recv`: a nil error, a "resource type
unsupported" error, or any other (generic) error. -/
inductive HandlerResult where
  | ok
  | typeUnsupported
  | err (e : String)
deriving DecidableEq

/-- One ADS response as read off the stream, together with the verdict the
update-handler callback returns for it (the callback is an external
collaborator, so its verdict is a parameter of the model). -/
structure AdsResponse where
  url : String
  version : String
  nonce : String
  handler : HandlerResult

/-- The ACK/NACK decision `Transport.recv` makes for one response:
`none` when the type is unsupported (neither ACK nor NACK), otherwise the
`ackRequest` pushed onto the queue.  A NACK carries the most recently
accepted version from the versions table; an ACK carries the version just
received. -/
def recvStep (versions : String → String) (streamId : Nat)
    (m : AdsResponse) : Option AckRequest :=
  match m.handler with
  | .typeUnsupported => none
  | .err e =>
      some { url := m.url, version := versions m.url, nonce := m.nonce
             nackErr := some e, stream := streamId }
  | .ok =>
      some { url := m.url, version := m.version, nonce := m.nonce
             nackErr := none, stream := streamId }

/-- The read loop of `Transport.recv`: `msgs` is the sequence of responses
successfully read before the read that fails and ends the stream.  Returns
the `msgReceived` flag (whether at least one message was read) and the
ACK/NACK requests enqueued, in order.  The versions table is read under the
mutex at each enqueue; it is passed as a fixed snapshot here, which is all
the claims about this loop depend on. -/
def recvLoop (versions : String → String) (streamId : Nat)
    (msgReceived : Bool) : List AdsResponse → Bool × List AckRequest
  | [] => (msgReceived, [])
  | m :: rest =>
      let tail := recvLoop versions streamId true rest
      match recvStep versions streamId m with
      | none => tail
      | some a => (tail.1, a :: tail.2)

/-- The loop body of `Transport.sendExisting`: one request per tracked
resource type, carrying the full subscribed name list, the last-known version
and an empty nonce.  `sendOk` models whether `stream.Send` succeeds for a
given message; the first failure aborts the loop.  Returns the success flag
and the messages actually transmitted. -/
def sendExistingLoop (versions : String → String) (sendOk : WireRequest → Bool) :
    List (String × List String) → Bool × List WireRequest
  | [] => (true, [])
  | (url, names) :: rest =>
      let req : WireRequest := ⟨mapToSlice names, url, versions url, "", none⟩
      if sendOk req then
        let tail := sendExistingLoop versions sendOk rest
        (tail.1, req :: tail.2)
      else (false, [])

/-- `Transport.sendExisting`: on a new stream, reset only the nonces map, then
re-request every tracked resource type.  Returns the updated state, whether
all sends succeeded, and the transmitted messages. -/
def sendExisting (t : TransportState) (sendOk : WireRequest → Bool) :
    TransportState × Bool × List WireRequest :=
  let t1 : TransportState := { t with nonces := fun _ => "" }
  let r := sendExistingLoop t.versions sendOk t.resources
  (t1, r.1, r.2)

/-- The backoff bookkeeping at the end of one `adsRunner` loop iteration:
when `resetBackoff` is true (at least one message was received on the
attempt's stream) the timer is reset to zero and the attempt counter to
zero; otherwise the next delay is `backoff attempt` and the counter is
incremented.  Returns (next delay, next attempt count). -/
def adsBackoffUpdate (backoff : Nat → Nat) (attempt : Nat)
    (resetBackoff : Bool) : Nat × Nat :=
  if resetBackoff then (0, 0)
  else (backoff attempt, attempt + 1)

/-- Non-blocking receive on the stream channel:
`select { case <-t.adsStreamCh: default: }`. -/
def tryDrain (ch : List Nat) : List Nat :=
  match ch with
  | [] => []
  | _ :: rest => rest

/-- Blocking send on a channel, appending to its buffer. -/
def chanSend (ch : List Nat) (x : Nat) : List Nat :=
  ch ++ [x]

/-- Publication of a fresh stream handle in `adsRunner`: drain any stale
pending handle from the depth-1 channel `adsStreamCh`, then push the new
one. -/
def publishStreamHandle (ch : List Nat) (s : Nat) : List Nat :=
  chanSend (tryDrain ch) s

/-- The configuration relevant to `New`'s validation: the server config
fields and the two required callbacks, each modelled by presence. -/
structure ServerConfig where
  serverURI : String
  creds : Option Unit

/-- `Options` for creating a transport; only the fields `New` validates are
carried (backoff, node proto and logger are optional and unchecked). -/
structure Options where
  serverCfg : ServerConfig
  updateHandler : Option Unit
  streamErrorHandler : Option Unit

/-- The construction-time failures of `New`. -/
inductive NewError where
  | missingServerURI
  | missingCreds
  | missingUpdateHandler
  | missingStreamErrorHandler
  | dialFailed (msg : String)
deriving DecidableEq

/-- `New`: validates the required options in order, then dials the management
server; `dialResult` models the outcome of `grpcDial`.  Success yields the
ready transport (abstracted to `Unit`: its initial table state is empty). -/
def NewTransport (opts : Options) (dialResult : Except String Unit) :
    Except NewError Unit :=
  if opts.serverCfg.serverURI = "" then .error .missingServerURI
  else if opts.serverCfg.creds = none then .error .missingCreds
  else if opts.updateHandler = none then .error .missingUpdateHandler
  else if opts.streamErrorHandler = none then .error .missingStreamErrorHandler
  else
    match dialResult with
    | .error e => .error (.dialFailed e)
    | .ok _ => .ok ()

/-- A sequence of `SendRequest` calls for one resource type, applied in queue
order by the sender's loop (only the state effect is tracked here). -/
def processSubscribes (t : TransportState) (url : String)
    (seqs : List (List String)) : TransportState :=
  seqs.foldl (fun s names => (processResourceRequest s ⟨names, url⟩).state) t

/-- The test `s, ok := t.resources[url]; ok && len(s) != 0` from
`processAckRequest`: whether the subscription set for `url` is present and
non-empty. -/
def hasSubscription (t : TransportState) (url : String) : Bool :=
  match mapLookup t.resources url with
  | some s => !s.isEmpty
  | none => false

/-! ### Helper lemmas about the association-list map operations -/

theorem mapLookup_mapInsert_self {β : Type} (rs : List (String × β))
    (url : String) (v : β) : mapLookup (mapInsert rs url v) url = some v := by
  induction rs with
  | nil => simp [mapInsert, mapLookup]
  | cons p rest ih =>
      obtain ⟨k, w⟩ := p
      by_cases h : k = url
      · simp [mapInsert, mapLookup, h]
      · simp [mapInsert, mapLookup, h, ih]

theorem keys_mapInsert_subset {β : Type} (rs : List (String × β))
    (url : String) (v : β) :
    ∀ k, k ∈ (mapInsert rs url v).map Prod.fst →
      k = url ∨ k ∈ rs.map Prod.fst := by
  induction rs with
  | nil => intro k hk; simp [mapInsert] at hk; exact Or.inl hk
  | cons p rest ih =>
      obtain ⟨k0, w⟩ := p
      intro k hk
      by_cases h : k0 = url
      · simp [mapInsert, h] at hk
        rcases hk with hk | hk
        · exact Or.inl hk
        · exact Or.inr (by simp [hk])
      · simp [mapInsert, h] at hk
        rcases hk with hk | hk
        · exact Or.inr (by simp [hk])
        · rcases ih k (by simpa using hk) with h1 | h1
          · exact Or.inl h1
          · exact Or.inr (by simp [h1])

theorem keys_mapInsert_nodup {β : Type} {rs : List (String × β)}
    (hnd : (rs.map Prod.fst).Nodup) (url : String) (v : β) :
    ((mapInsert rs url v).map Prod.fst).Nodup := by
  induction rs with
  | nil => simp [mapInsert]
  | cons p rest ih =>
      obtain ⟨k0, w⟩ := p
      simp only [List.map_cons, List.nodup_cons] at hnd
      by_cases h : k0 = url
      · subst h
        simpa [mapInsert] using hnd
      · have h1 : ((mapInsert rest url v).map Prod.fst).Nodup := ih hnd.2
        have h2 : k0 ∉ (mapInsert rest url v).map Prod.fst := by
          intro hmem
          rcases keys_mapInsert_subset rest url v k0 hmem with h3 | h3
          · exact h h3
          · exact hnd.1 h3
        rw [show mapInsert ((k0, w) :: rest) url v = (k0, w) :: mapInsert rest url v
          from by simp [mapInsert, h]]
        simp only [List.map_cons, List.nodup_cons]
        exact ⟨h2, h1⟩

theorem mapLookup_eq_of_mem {β : Type} {rs : List (String × β)}
    (hnd : (rs.map Prod.fst).Nodup) {p : String × β} (hp : p ∈ rs) :
    mapLookup rs p.1 = some p.2 := by
  induction rs with
  | nil => simp at hp
  | cons q rest ih =>
      obtain ⟨k0, w⟩ := q
      simp only [List.map_cons, List.nodup_cons] at hnd
      rcases List.mem_cons.mp hp with hq | hq
      · subst hq; simp [mapLookup]
      · have hk : k0 ≠ p.1 := by
          intro he
          exact hnd.1 (he ▸ List.mem_map.mpr ⟨p, hq, rfl⟩)
        simp [mapLookup, hk, ih hnd.2 hq]

/-! ### Concrete states and requests used to instantiate theorems -/

/-- A state with one subscription for type URL `A` ( name `x`), version `v0`
accepted and nonce `n0` seen. -/
def sampleState : TransportState :=
  { resources := [("A", ["x"])], versions := fun _ => "v0", nonces := fun _ => "n0" }

/-- A state with no subscriptions at all and empty tables. -/
def emptyState : TransportState :=
  { resources := [], versions := fun _ => "", nonces := fun _ => "" }

/-- An ACK for type `A`, version `v1`, nonce `n1`, tagged with stream 1. -/
def sampleAck : AckRequest :=
  { url := "A", version := "v1", nonce := "n1", nackErr := none, stream := 1 }

/-! ### Claims -/

/-- Claim C2: an ACK/NACK request whose embedded stream reference differs from
the sender's currently live stream is a no-op: the state (nonce and version
tables included) is returned untouched and no message is produced for the
wire. -/
theorem c2_stale_stream_noop (t : TransportState) (stream : Option Nat)
    (a : AckRequest) (h : some a.stream ≠ stream) :
    processAckRequest t a stream =
      { state := t, resources := [], url := "", version := "", nonce := ""
        send := false } ∧
    sendProcessRequest t stream (.ackReq a) = (t, none) := by
  constructor
  · simp [processAckRequest, h]
  · simp [sendProcessRequest, processAckRequest, h]

/-- Witness for C2: the sample ACK is tagged with stream 1 while stream 2 is
live, so processing leaves the sample state untouched and sends nothing. -/
theorem c2_witness :
    (some sampleAck.stream ≠ some 2) ∧
    (processAckRequest sampleState sampleAck (some 2) =
      { state := sampleState, resources := [], url := "", version := ""
        nonce := "", send := false } ∧
     sendProcessRequest sampleState (some 2) (.ackReq sampleAck) =
       (sampleState, none)) :=
  ⟨by decide, c2_stale_stream_noop sampleState (some 2) sampleAck (by decide)⟩

/-- Claim C5: an ACK/NACK for a type whose subscription set is absent or
empty is not sent on the wire; its nonce table entry is still updated, but
the version table (and the subscription set) is untouched. -/
theorem c5_empty_subscription_drop (t : TransportState) (s : Option Nat)
    (a : AckRequest) (hstream : some a.stream = s)
    (hempty : mapLookup t.resources a.url = none ∨
      mapLookup t.resources a.url = some []) :
    (processAckRequest t a s).send = false ∧
    (processAckRequest t a s).state.nonces a.url = a.nonce ∧
    (processAckRequest t a s).state.versions = t.versions ∧
    (processAckRequest t a s).state.resources = t.resources ∧
    (sendProcessRequest t s (.ackReq a)).2 = none := by
  subst hstream
  rcases hempty with h | h <;>
    simp [processAckRequest, sendProcessRequest, stringMapSet, h]

/-- Witness for C5: an ACK for type `A` against the empty state (no
subscriptions) updates only the nonce table and is dropped. -/
theorem c5_witness :
    (some sampleAck.stream = some 1) ∧
    (mapLookup emptyState.resources sampleAck.url = none ∨
      mapLookup emptyState.resources sampleAck.url = some []) ∧
    ((processAckRequest emptyState sampleAck (some 1)).send = false ∧
     (processAckRequest emptyState sampleAck (some 1)).state.nonces
        sampleAck.url = sampleAck.nonce ∧
     (processAckRequest emptyState sampleAck (some 1)).state.versions =
        emptyState.versions ∧
     (processAckRequest emptyState sampleAck (some 1)).state.resources =
        emptyState.resources ∧
     (sendProcessRequest emptyState (some 1) (.ackReq sampleAck)).2 = none) :=
  ⟨rfl, Or.inl rfl,
    c5_empty_subscription_drop emptyState (some 1) sampleAck rfl (Or.inl rfl)⟩

/-- Claim C1, counterexample: an ACK (`nackErr = none`) for a type with no
subscription entry, processed against the live stream, updates the nonce
table but leaves the version table entry different from the ACK's version —
so "the version table is updated to the request's version if and only if the
request is an ACK" fails as stated. -/
theorem c1_counterexample :
    sampleAck.nackErr = none ∧
    some sampleAck.stream = some 1 ∧
    (processAckRequest emptyState sampleAck (some 1)).state.nonces "A" = "n1" ∧
    (processAckRequest emptyState sampleAck (some 1)).state.versions "A" ≠
      sampleAck.version := by
  refine ⟨rfl, rfl, ?_, ?_⟩ <;> decide

/-- Claim C1, amended: for an ACK/NACK processed against the live stream, the
nonce table entry for its type is set to the request's nonce regardless of
ACK or NACK; the version table entry is set to the request's version exactly
when the request is an ACK and the subscription set for the type is
non-empty (otherwise it is unchanged); and whenever the request is actually
sent, it carries the request's version and nonce, and a sent ACK leaves the
version table at that version. -/
theorem c1_ack_processing (t : TransportState) (s : Option Nat)
    (a : AckRequest) (hstream : some a.stream = s) :
    (processAckRequest t a s).state.nonces a.url = a.nonce ∧
    (processAckRequest t a s).state.versions a.url =
      (if a.nackErr = none ∧ hasSubscription t a.url then a.version
       else t.versions a.url) ∧
    ((processAckRequest t a s).send = true →
      (processAckRequest t a s).url = a.url ∧
      (processAckRequest t a s).version = a.version ∧
      (processAckRequest t a s).nonce = a.nonce ∧
      (a.nackErr = none →
        (processAckRequest t a s).state.versions a.url = a.version)) := by
  subst hstream
  cases hres : mapLookup t.resources a.url with
  | none => simp [processAckRequest, hasSubscription, stringMapSet, hres]
  | some l =>
      cases l with
      | nil => simp [processAckRequest, hasSubscription, stringMapSet, hres]
      | cons x xs =>
          by_cases hn : a.nackErr = none <;>
            simp [processAckRequest, hasSubscription, stringMapSet, hres, hn]

/-- Witness for C1 (amended): an ACK for type `A` against the sample state
(which subscribes to `A`) on the live stream updates both tables and is
sent with its own version and nonce. -/
theorem c1_witness :
    (some sampleAck.stream = some 1) ∧
    ((processAckRequest sampleState sampleAck (some 1)).state.nonces
        sampleAck.url = sampleAck.nonce ∧
     (processAckRequest sampleState sampleAck (some 1)).state.versions
        sampleAck.url =
       (if sampleAck.nackErr = none ∧ hasSubscription sampleState sampleAck.url
        then sampleAck.version else sampleState.versions sampleAck.url) ∧
     ((processAckRequest sampleState sampleAck (some 1)).send = true →
       (processAckRequest sampleState sampleAck (some 1)).url = sampleAck.url ∧
       (processAckRequest sampleState sampleAck (some 1)).version =
          sampleAck.version ∧
       (processAckRequest sampleState sampleAck (some 1)).nonce =
          sampleAck.nonce ∧
       (sampleAck.nackErr = none →
         (processAckRequest sampleState sampleAck (some 1)).state.versions
            sampleAck.url = sampleAck.version))) :=
  ⟨rfl, c1_ack_processing sampleState (some 1) sampleAck rfl⟩

/-- When every transmission succeeds, `sendExistingLoop` completes and sends
one message per tracked entry, in iteration order. -/
theorem sendExistingLoop_all_ok (versions : String → String)
    (rs : List (String × List String)) :
    sendExistingLoop versions (fun _ => true) rs =
      (true, rs.map fun p => ⟨mapToSlice p.2, p.1, versions p.1, "", none⟩) := by
  induction rs with
  | nil => rfl
  | cons p rest ih => obtain ⟨url, names⟩ := p; simp [sendExistingLoop, ih]

/-- The `msgReceived` flag returned by the read loop: true exactly when the
flag was already set or at least one message was read. -/
theorem recvLoop_msgReceived (versions : String → String) (sid : Nat)
    (b : Bool) (msgs : List AdsResponse) :
    (recvLoop versions sid b msgs).1 = (b || !msgs.isEmpty) := by
  induction msgs generalizing b with
  | nil => simp [recvLoop]
  | cons m rest ih =>
      cases hs : recvStep versions sid m <;> simp [recvLoop, hs, ih]

/-- `processSubscribes` preserves distinctness of the keys of the resources
map (a Go map cannot hold a key twice). -/
theorem processSubscribes_keys_nodup (t : TransportState) (url : String)
    (seqs : List (List String)) (hnd : (t.resources.map Prod.fst).Nodup) :
    ((processSubscribes t url seqs).resources.map Prod.fst).Nodup := by
  induction seqs generalizing t with
  | nil => simpa [processSubscribes]
  | cons names rest ih =>
      have h1 := keys_mapInsert_nodup hnd url (sliceToMap names)
      simpa [processSubscribes, processResourceRequest] using
        ih { t with resources := mapInsert t.resources url (sliceToMap names) } h1

/-- Claim C3: the receive path enqueues, for a generic handler failure, a
NACK carrying the last accepted version from the version table (not the
version just received), the received nonce and the error; for handler
success, an ACK carrying the received version and nonce and no error; and in
either case the loop keeps reading the remaining messages. -/
theorem c3_recv_ack_decision (versions : String → String) (sid : Nat)
    (url rv nonce e : String) (b : Bool) (m : AdsResponse)
    (rest : List AdsResponse) :
    recvStep versions sid ⟨url, rv, nonce, .err e⟩ =
      some ⟨url, versions url, nonce, some e, sid⟩ ∧
    recvStep versions sid ⟨url, rv, nonce, .ok⟩ =
      some ⟨url, rv, nonce, none, sid⟩ ∧
    recvLoop versions sid b (m :: rest) =
      ((recvLoop versions sid true rest).1,
        (recvStep versions sid m).toList ++
          (recvLoop versions sid true rest).2) := by
  refine ⟨rfl, rfl, ?_⟩
  cases hs : recvStep versions sid m <;> simp [recvLoop, hs]

/-- Claim C4: on a new stream, `sendExisting` clears the nonce table
entirely, leaves the version table and the subscription set untouched, and
(all transmissions succeeding) sends exactly one request per tracked
resource type, carrying its full subscribed name set, its last-accepted
version and an empty nonce. -/
theorem c4_send_existing (t : TransportState) :
    (sendExisting t (fun _ => true)).1.nonces = (fun _ => "") ∧
    (sendExisting t (fun _ => true)).1.versions = t.versions ∧
    (sendExisting t (fun _ => true)).1.resources = t.resources ∧
    (sendExisting t (fun _ => true)).2.1 = true ∧
    (sendExisting t (fun _ => true)).2.2 =
      t.resources.map (fun p => ⟨mapToSlice p.2, p.1, t.versions p.1, "", none⟩) := by
  refine ⟨rfl, rfl, rfl, ?_, ?_⟩ <;> simp [sendExisting, sendExistingLoop_all_ok]

/-- Claim C6: after a stream attempt, backoff state is reset exactly when at
least one response was received on the stream (delay 0, attempt count 0);
after a stream with zero responses the next delay is `backoff attempt` and
the counter is incremented — in particular a first stream that breaks
before any response yields delay `backoff 0` and counter 1. -/
theorem c6_backoff_reset (backoff : Nat → Nat) (attempt : Nat)
    (versions : String → String) (sid : Nat) (msgs : List AdsResponse) :
    adsBackoffUpdate backoff attempt (recvLoop versions sid false msgs).1 =
      (if msgs.isEmpty then (backoff attempt, attempt + 1) else (0, 0)) ∧
    adsBackoffUpdate backoff 0 (recvLoop versions sid false []).1 =
      (backoff 0, 1) := by
  constructor
  · rw [recvLoop_msgReceived]
    cases msgs <;> simp [adsBackoffUpdate]
  · simp [recvLoop, adsBackoffUpdate]

/-- Claim C7: after any sequence of subscribe calls for one resource type,
the subscription set for that type is exactly the name set of the most
recent call; consequently every request `sendExisting` emits for that type
on reconnect carries exactly that name set. -/
theorem c7_last_write_wins (t : TransportState) (url : String)
    (seqs : List (List String)) (names : List String)
    (hnd : (t.resources.map Prod.fst).Nodup) :
    mapLookup (processSubscribes t url (seqs ++ [names])).resources url =
      some (sliceToMap names) ∧
    (∀ x, x ∈ sliceToMap names ↔ x ∈ names) ∧
    (∀ r, r ∈ (sendExisting (processSubscribes t url (seqs ++ [names]))
        (fun _ => true)).2.2 →
      r.url = url → r.resources = mapToSlice (sliceToMap names)) := by
  have hlast : mapLookup (processSubscribes t url (seqs ++ [names])).resources
      url = some (sliceToMap names) := by
    rw [show processSubscribes t url (seqs ++ [names]) =
        (processResourceRequest (processSubscribes t url seqs)
          ⟨names, url⟩).state
      from by simp [processSubscribes, List.foldl_append]]
    simp [processResourceRequest, mapLookup_mapInsert_self]
  refine ⟨hlast, fun x => by simp [sliceToMap], ?_⟩
  intro r hr hurl
  have hnd2 := processSubscribes_keys_nodup t url (seqs ++ [names]) hnd
  rw [show (sendExisting (processSubscribes t url (seqs ++ [names]))
      (fun _ => true)).2.2 =
      (processSubscribes t url (seqs ++ [names])).resources.map
        (fun p => ⟨mapToSlice p.2, p.1,
          (processSubscribes t url (seqs ++ [names])).versions p.1, "", none⟩)
    from by simp [sendExisting, sendExistingLoop_all_ok]] at hr
  rcases List.mem_map.mp hr with ⟨p, hp, hpr⟩
  have hu : p.1 = url := by rw [← hpr] at hurl; exact hurl
  have := mapLookup_eq_of_mem hnd2 hp
  rw [hu, hlast] at this
  have hv : p.2 = sliceToMap names := by
    injection this with hv2
    exact hv2.symm
  rw [← hpr]
  simp [hv]

/-- Witness for C7: two subscribe calls for type `A` on the empty state; the
table holds the names of the second call only, and reconnect resends exactly
those. -/
theorem c7_witness :
    (((emptyState).resources.map Prod.fst).Nodup) ∧
    (mapLookup (processSubscribes emptyState "A" ([["x"]] ++ [["y", "z"]])).resources
        "A" = some (sliceToMap ["y", "z"]) ∧
     (∀ x, x ∈ sliceToMap ["y", "z"] ↔ x ∈ ["y", "z"]) ∧
     (∀ r, r ∈ (sendExisting (processSubscribes emptyState "A"
          ([["x"]] ++ [["y", "z"]])) (fun _ => true)).2.2 →
        r.url = "A" → r.resources = mapToSlice (sliceToMap ["y", "z"]))) :=
  ⟨List.nodup_nil, c7_last_write_wins emptyState "A" [["x"]] ["y", "z"]
    List.nodup_nil⟩

/-- Claim C8: publishing a fresh stream handle first drains any pending
handle from the depth-1 slot and then deposits the new one, so the slot
always ends holding exactly the newest handle (and thus never more than
one). -/
theorem c8_stream_handoff (ch : List Nat) (s : Nat) (h : ch.length ≤ 1) :
    publishStreamHandle ch s = [s] ∧
    (publishStreamHandle ch s).length ≤ 1 := by
  cases ch with
  | nil => exact ⟨rfl, by simp [publishStreamHandle, chanSend, tryDrain]⟩
  | cons x rest =>
      cases rest with
      | nil => exact ⟨rfl, by simp [publishStreamHandle, chanSend, tryDrain]⟩
      | cons y rest2 => simp at h

/-- Witness for C8: publishing handle 9 while handle 7 is still pending
discards 7 and leaves only 9 in the slot. -/
theorem c8_witness :
    ([7].length ≤ 1) ∧
    (publishStreamHandle [7] 9 = [9] ∧ (publishStreamHandle [7] 9).length ≤ 1) :=
  ⟨by decide, c8_stream_handoff [7] 9 (by decide)⟩

/-- Whether an `Except` value is a success. -/
def exceptOk {ε α : Type} : Except ε α → Bool
  | .ok _ => true
  | .error _ => false

/-- Claim C9: construction succeeds exactly when the server address is
non-empty, credentials, update handler and stream-error handler are all
present, and the dial succeeds; each missing requirement (or a failed dial)
is a construction-time failure returned to the caller. -/
theorem c9_construction_validation (opts : Options)
    (dial : Except String Unit) :
    exceptOk (NewTransport opts dial) = true ↔
      (opts.serverCfg.serverURI ≠ "" ∧ opts.serverCfg.creds ≠ none ∧
        opts.updateHandler ≠ none ∧ opts.streamErrorHandler ≠ none ∧
        exceptOk dial = true) := by
  simp only [NewTransport]
  split_ifs with h1 h2 h3 h4
  · simp [exceptOk, h1]
  · simp [exceptOk, h2]
  · simp [exceptOk, h3]
  · simp [exceptOk, h4]
  · cases dial <;> simp [exceptOk, h1, h2, h3, h4]

/-- Claim C10: a subscribe request with an empty name list, processed while a
stream is live, is transmitted on the wire with zero resource names (the
empty-list suppression applies only to the ACK/NACK path) and replaces the
subscription set entry for its type with the empty set. -/
theorem c10_empty_subscribe_sent (t : TransportState) (url : String)
    (sid : Nat) :
    sendProcessRequest t (some sid) (.resourceReq ⟨[], url⟩) =
      ({ t with resources := mapInsert t.resources url [] },
        some ⟨[], url, t.versions url, t.nonces url, none⟩) ∧
    mapLookup (sendProcessRequest t (some sid)
      (.resourceReq ⟨[], url⟩)).1.resources url = some [] := by
  constructor
  · simp [sendProcessRequest, processResourceRequest, sliceToMap]
  · simp [sendProcessRequest, processResourceRequest, sliceToMap,
      mapLookup_mapInsert_self]

end XdsTransport
